import Mathlib

/-!
Shallow embedding of the Attendance/Leave/Access Consistency Engine of the
Debuggingdynamos school-management app (src/App.tsx, src/types.ts).

Data model (src/types.ts): users, students with attendance sequences,
leave applications, exams and exam submissions.  Calendar dates
(`YYYY-MM-DD` strings in the source) are modelled as natural numbers
counting UTC days, an injective encoding; the source's UTC day-by-day
iteration from startDate to endDate becomes `List.range'`.  JavaScript
number arithmetic on percentages is modelled exactly over `ℚ`.

Operations (src/App.tsx): the access-block login effect,
handleUpdateLeaveStatus, handleSubmitExam, handleDeleteExam and
handleSignup, as state transformers over an `AppState` record mirroring
the React state hooks.
-/

inductive UserRole where
  | student
  | teacher
  | parent
deriving DecidableEq, Repr

structure User where
  id : String
  name : String
  email : String
  role : UserRole
  password : Option String
  mobile : Option String
  registeredPhotoUrl : String
  childId : Option String
  enableScanOnLogin : Option Bool
deriving DecidableEq, Repr

inductive AttendanceStatus where
  | Present
  | Absent
  | Late
deriving DecidableEq, Repr

structure AttendanceRecord where
  date : Nat
  subject : String
  teacherName : String
  timestamp : String
  status : AttendanceStatus
deriving DecidableEq, Repr

structure DailyPlanItem where
  day : String
  focus_topic : String
  learning_activity : String
  practice_task : String
  estimated_time : String
deriving DecidableEq, Repr

structure LearningPath where
  overall_summary : String
  daily_plan : List DailyPlanItem
deriving DecidableEq, Repr

inductive AssignmentStatus where
  | Graded
  | Submitted
  | Pending
  | Late
deriving DecidableEq, Repr

structure Assignment where
  id : String
  title : String
  dueDate : String
  submittedDate : Option String
  status : AssignmentStatus
  score : Option ℚ
  maxScore : ℚ
deriving DecidableEq, Repr

structure SubjectProgress where
  subjectName : String
  overallGrade : String
  teacherFeedback : String
  assignments : List Assignment
deriving DecidableEq, Repr

inductive EngagementStatus where
  | Engaged
  | Neutral
  | Disengaged
  | Unknown
deriving DecidableEq, Repr

inductive BehaviourStatus where
  | Good
  | NeedsImprovement
deriving DecidableEq, Repr

inductive BlockReason where
  | LowAttendance
  | BehaviourIssue
  | AttendanceAndBehaviour
deriving DecidableEq, Repr

structure Student where
  id : String
  name : String
  rollNumber : String
  department : String
  attendance : List AttendanceRecord
  learningPath : Option LearningPath
  isAccessBlocked : Bool
  behaviourStatus : BehaviourStatus
  blockReason : Option BlockReason
  progress : List SubjectProgress
  temporaryAccessExpires : Option ℚ
  engagementStatus : Option EngagementStatus
deriving DecidableEq, Repr

inductive LeaveStatus where
  | Pending
  | Approved
  | Rejected
deriving DecidableEq, Repr

structure LeaveApplication where
  id : String
  studentId : String
  studentName : String
  studentRollNumber : String
  startDate : Nat
  endDate : Nat
  reason : String
  documentUrl : Option String
  status : LeaveStatus
  teacherComment : Option String
  applicationDate : String
deriving DecidableEq, Repr

structure Question where
  id : String
  text : String
  options : List String
  correctAnswer : String
deriving DecidableEq, Repr

structure Exam where
  id : String
  title : String
  subject : String
  durationMinutes : ℚ
  createdBy : String
  questions : List Question
deriving DecidableEq, Repr

inductive SubmissionStatus where
  | Completed
  | Blocked
deriving DecidableEq, Repr

structure ExamSubmission where
  id : String
  examId : String
  studentId : String
  studentName : String
  answers : List (String × String)
  submittedAt : ℚ
  score : ℤ
  status : SubmissionStatus
deriving DecidableEq, Repr

/-- The React state of `App` that the engine's operations read and write:
the five persisted collections plus the current user, the auth-error
message and the login/signup view flag. -/
structure AppState where
  currentUser : Option User
  users : List User
  students : List Student
  leaveApplications : List LeaveApplication
  exams : List Exam
  examSubmissions : List ExamSubmission
  isLoginView : Bool
  authError : Option String
deriving DecidableEq, Repr

/-- JavaScript `array.findIndex` followed by a copy-and-set at that index:
replace the first element satisfying `p` by its image under `f`. -/
def replaceFirst (p : α → Bool) (f : α → α) : List α → List α
  | [] => []
  | a :: as => if p a then f a :: as else a :: replaceFirst p f as

/-- The sentinel subject of attendance records synthesized for an
approved leave. -/
def leaveSubject : String := "On Approved Leave"

/-- `rec.date === dateString && rec.subject === 'On Approved Leave'`
tested by `newAttendanceRecords.some` in handleUpdateLeaveStatus. -/
def hasLeaveRecordForDay (att : List AttendanceRecord) (d : Nat) : Bool :=
  att.any fun rec => rec.date == d && rec.subject == leaveSubject

/-- The UTC calendar days from `startDate` to `endDate` inclusive, the
range of the `for (let d = startDate; d <= endDate; ...)` loop; empty
when `startDate > endDate`. -/
def leaveDays (startDate endDate : Nat) : List Nat :=
  List.range' startDate (endDate + 1 - startDate)

/-- The attendance record appended for an approved-leave day. -/
def mkLeaveRecord (teacherName : String) (d : Nat) : AttendanceRecord :=
  { date := d, subject := leaveSubject, teacherName := teacherName,
    timestamp := "All Day", status := AttendanceStatus.Present }

/-- `teacher?.name || 'System'`: the first Teacher-role user's name,
falling back to "System" when there is no teacher or (JavaScript
falsiness of the empty string) the teacher's name is empty. -/
def teacherNameOf (users : List User) : String :=
  match users.find? (fun u => decide (u.role = UserRole.teacher)) with
  | some t => if t.name = "" then "System" else t.name
  | none => "System"

/-- The approved-leave loop of handleUpdateLeaveStatus: walk the days,
appending a leave record for each day that has none yet (checked against
the growing list, so records appended earlier in the loop count). -/
def synthesizeLeave (teacherName : String) (days : List Nat)
    (att : List AttendanceRecord) : List AttendanceRecord :=
  days.foldl
    (fun acc d =>
      if hasLeaveRecordForDay acc d then acc
      else acc ++ [mkLeaveRecord teacherName d])
    att

/-- src/App.tsx handleUpdateLeaveStatus: update the application found by
id (no-op when none), then, on approval, synthesize leave attendance for
the application's student (found by studentId; the application update
stands even when the student is missing). -/
def handleUpdateLeaveStatus (s : AppState) (applicationId : String)
    (status : LeaveStatus) (teacherComment : Option String) : AppState :=
  match s.leaveApplications.find? (fun app => app.id == applicationId) with
  | none => s
  | some application =>
    let newApplications := replaceFirst (fun app => app.id == applicationId)
      (fun app => { app with status := status, teacherComment := teacherComment })
      s.leaveApplications
    let newStudents :=
      if status = LeaveStatus.Approved then
        match s.students.find? (fun st => st.id == application.studentId) with
        | none => s.students
        | some _ =>
          replaceFirst (fun st => st.id == application.studentId)
            (fun st =>
              { st with
                attendance := synthesizeLeave (teacherNameOf s.users)
                  (leaveDays application.startDate application.endDate) st.attendance })
            s.students
      else s.students
    { s with leaveApplications := newApplications, students := newStudents }

/-- `attendance.filter(a => a.status === 'Present').length`. -/
def presentCount (att : List AttendanceRecord) : Nat :=
  (att.filter fun a => decide (a.status = AttendanceStatus.Present)).length

/-- `totalClasses > 0 ? (presentClasses / totalClasses) * 100 : 100`,
exact over ℚ. -/
def attendancePercentage (att : List AttendanceRecord) : ℚ :=
  if att.length > 0 then ((presentCount att : ℚ) / (att.length : ℚ)) * 100 else 100

/-- The login access-block effect of src/App.tsx (lines 114-146), as the
pure per-student function it computes: block on low attendance, escalate
a behaviour block, never unblock. -/
def accessBlockEval (st : Student) : Student :=
  let isLowAttendance := attendancePercentage st.attendance < 75
  if isLowAttendance then
    if ¬ st.isAccessBlocked then
      { st with isAccessBlocked := true, blockReason := some BlockReason.LowAttendance }
    else if st.blockReason = some BlockReason.BehaviourIssue then
      { st with blockReason := some BlockReason.AttendanceAndBehaviour }
    else st
  else st

/-- JavaScript object lookup `answers[q.id]` for the answers mapping,
modelled as first-match association-list lookup. -/
def lookupAnswer (answers : List (String × String)) (qid : String) : Option String :=
  (answers.find? fun p => p.1 == qid).map (·.2)

/-- The caller-supplied part of an ExamSubmission (`Omit<ExamSubmission,
'id' | 'score' | 'studentName'>`). -/
structure SubmitExamInput where
  examId : String
  studentId : String
  answers : List (String × String)
  submittedAt : ℚ
  status : SubmissionStatus
deriving DecidableEq, Repr

/-- src/App.tsx handleSubmitExam: no-op unless the exam exists and a
current user is set; score is the rounded percentage of questions whose
correct answer equals the submitted answer, 0 for a question-less exam.
`newId` stands for the `sub-${Date.now()}` identifier. -/
def handleSubmitExam (s : AppState) (newId : String)
    (sub : SubmitExamInput) : AppState :=
  match s.exams.find? (fun e => e.id == sub.examId), s.currentUser with
  | some exam, some cu =>
    let correctAnswers :=
      (exam.questions.filter fun q =>
        decide (lookupAnswer sub.answers q.id = some q.correctAnswer)).length
    let score : ℚ :=
      if exam.questions.length > 0 then
        ((correctAnswers : ℚ) / (exam.questions.length : ℚ)) * 100
      else 0
    let newSubmission : ExamSubmission :=
      { id := newId, examId := sub.examId, studentId := sub.studentId,
        studentName := cu.name, answers := sub.answers,
        submittedAt := sub.submittedAt, score := round score,
        status := sub.status }
    { s with examSubmissions := s.examSubmissions ++ [newSubmission] }
  | _, _ => s

/-- src/App.tsx handleDeleteExam: drop the exam by id and cascade-delete
the submissions referencing it. -/
def handleDeleteExam (s : AppState) (examId : String) : AppState :=
  { s with
    exams := s.exams.filter fun e => ! (e.id == examId),
    examSubmissions := s.examSubmissions.filter fun sub => ! (sub.examId == examId) }

/-- No two records of the attendance sequence mark the same date with the
synthesized "On Approved Leave" subject. -/
def noDupLeave (att : List AttendanceRecord) : Prop :=
  att.Pairwise fun r₁ r₂ =>
    ¬(r₁.date = r₂.date ∧ r₁.subject = leaveSubject ∧ r₂.subject = leaveSubject)

/-- The argument record of handleSignup. -/
structure SignupDetails where
  name : String
  email : String
  role : UserRole
  password : String
  childEmail : Option String
  registeredPhotoUrl : String
deriving DecidableEq, Repr

/-- src/App.tsx handleSignup.  `newUserId` stands for `user-${Date.now()}`,
`rollNumber` for the random roll number and `defaultDepartment` for
`MOCK_STUDENTS[0].department` (mock data outside the embedded sources).
A falsy (absent or empty) childEmail on a parent signup is an error, as
is a childEmail matching no Student-role user. -/
def handleSignup (s : AppState) (newUserId rollNumber defaultDepartment : String)
    (details : SignupDetails) : AppState :=
  if (s.users.find? fun u => u.email == details.email).isSome then
    { s with authError := some "An account with this email already exists.",
             isLoginView := true }
  else
    let newUser : User :=
      { id := newUserId, name := details.name, email := details.email,
        role := details.role, password := some details.password, mobile := none,
        registeredPhotoUrl := details.registeredPhotoUrl, childId := none,
        enableScanOnLogin := some true }
    if details.role = UserRole.student then
      let newStudent : Student :=
        { id := newUserId, name := details.name, rollNumber := rollNumber,
          department := defaultDepartment, attendance := [], learningPath := none,
          isAccessBlocked := false, behaviourStatus := BehaviourStatus.Good,
          blockReason := none, progress := [], temporaryAccessExpires := none,
          engagementStatus := none }
      { s with students := s.students ++ [newStudent],
               users := s.users ++ [newUser],
               currentUser := some newUser, authError := none }
    else if details.role = UserRole.parent then
      match details.childEmail with
      | none =>
        { s with authError := some "Please provide your child's email to create a parent account." }
      | some childEmail =>
        if childEmail = "" then
          { s with authError := some "Please provide your child's email to create a parent account." }
        else
          match s.users.find? (fun u =>
              u.email == childEmail && decide (u.role = UserRole.student)) with
          | none =>
            { s with authError := some ("No student account found with the email: "
                ++ childEmail ++ ". Please verify the email.") }
          | some childUser =>
            let linkedUser := { newUser with childId := some childUser.id }
            { s with users := s.users ++ [linkedUser],
                     currentUser := some linkedUser, authError := none }
    else
      { s with users := s.users ++ [newUser],
               currentUser := some newUser, authError := none }

/-! ## Concrete fixtures used to instantiate the theorems -/

def baseTeacher : User :=
  { id := "t1", name := "Ms Green", email := "teacher@school.com",
    role := UserRole.teacher, password := some "pw", mobile := none,
    registeredPhotoUrl := "", childId := none, enableScanOnLogin := none }

def baseStudent : Student :=
  { id := "s1", name := "Asha", rollNumber := "S101", department := "Science",
    attendance := [], learningPath := none, isAccessBlocked := false,
    behaviourStatus := BehaviourStatus.Good, blockReason := none,
    progress := [], temporaryAccessExpires := none, engagementStatus := none }

def baseApplication : LeaveApplication :=
  { id := "l1", studentId := "s1", studentName := "Asha",
    studentRollNumber := "S101", startDate := 10, endDate := 12,
    reason := "family event", documentUrl := none,
    status := LeaveStatus.Pending, teacherComment := none,
    applicationDate := "2024-01-05" }

def baseState : AppState :=
  { currentUser := none, users := [baseTeacher], students := [baseStudent],
    leaveApplications := [baseApplication], exams := [], examSubmissions := [],
    isLoginView := true, authError := none }

/-- An ordinary Absent attendance record (a taught class, not a leave day). -/
def absentRecord : AttendanceRecord :=
  { date := 1, subject := "Math", teacherName := "Ms Green",
    timestamp := "09:05 AM", status := AttendanceStatus.Absent }

def lowStudent : Student := { baseStudent with attendance := [absentRecord] }

def fixStudentUser : User :=
  { id := "s1", name := "Asha", email := "asha@school.com",
    role := UserRole.student, password := some "pw", mobile := none,
    registeredPhotoUrl := "", childId := none, enableScanOnLogin := none }

def fixExam : Exam :=
  { id := "e1", title := "Quiz 1", subject := "Math", durationMinutes := 30,
    createdBy := "t1",
    questions :=
      [ { id := "q1", text := "1+1?", options := ["2", "3"], correctAnswer := "2" },
        { id := "q2", text := "2+2?", options := ["4", "5"], correctAnswer := "4" },
        { id := "q3", text := "3+3?", options := ["6", "7"], correctAnswer := "6" },
        { id := "q4", text := "4+4?", options := ["8", "9"], correctAnswer := "8" } ] }

def fixSubInput : SubmitExamInput :=
  { examId := "e1", studentId := "s1",
    answers := [("q1", "2"), ("q2", "4"), ("q3", "6"), ("q4", "9")],
    submittedAt := 0, status := SubmissionStatus.Completed }

def fixExamState : AppState :=
  { currentUser := some fixStudentUser, users := [baseTeacher, fixStudentUser],
    students := [baseStudent], leaveApplications := [], exams := [fixExam],
    examSubmissions := [], isLoginView := true, authError := none }

/-- A teacher whose stored name is the empty string. -/
def blankTeacher : User := { baseTeacher with name := "" }

/-- State whose only (first) teacher has an empty name, and a one-day
pending leave application for the only student. -/
def blankTeacherState : AppState :=
  { baseState with
    users := [blankTeacher]
    leaveApplications := [{ baseApplication with endDate := 10 }] }

/-- State with a leave application whose studentId resolves to no student. -/
def ghostState : AppState := { baseState with students := [] }

def parentDetails : SignupDetails :=
  { name := "Priya", email := "priya@home.com", role := UserRole.parent,
    password := "pw", childEmail := some "nobody@school.com",
    registeredPhotoUrl := "" }

/-! ## Helper lemmas about `replaceFirst` -/

theorem replaceFirst_of_find?_eq_none (p : α → Bool) (f : α → α) (l : List α)
    (h : l.find? p = none) : replaceFirst p f l = l := by
  induction l with
  | nil => rfl
  | cons a as ih =>
    rw [List.find?_cons] at h
    cases hpa : p a with
    | true => rw [hpa] at h; simp at h
    | false => rw [hpa] at h; simp [replaceFirst, hpa, ih h]

theorem find?_replaceFirst (p : α → Bool) (f : α → α)
    (hpf : ∀ a, p (f a) = p a) (l : List α) :
    (replaceFirst p f l).find? p = (l.find? p).map f := by
  induction l with
  | nil => rfl
  | cons a as ih =>
    cases hpa : p a with
    | true => simp [replaceFirst, hpa, List.find?_cons, hpf]
    | false => simp [replaceFirst, hpa, List.find?_cons, ih]

theorem replaceFirst_replaceFirst (p : α → Bool) (f : α → α)
    (hpf : ∀ a, p (f a) = p a) (hff : ∀ a, p a = true → f (f a) = f a)
    (l : List α) :
    replaceFirst p f (replaceFirst p f l) = replaceFirst p f l := by
  induction l with
  | nil => rfl
  | cons a as ih =>
    cases hpa : p a with
    | true => simp [replaceFirst, hpa, hpf, hff a hpa]
    | false => simp [replaceFirst, hpa, ih]

theorem forall₂_replaceFirst (R : α → α → Prop) (p : α → Bool) (f : α → α)
    (hrefl : ∀ a, R a a) (hf : ∀ a, p a = true → R a (f a)) (l : List α) :
    List.Forall₂ R l (replaceFirst p f l) := by
  induction l with
  | nil => exact List.Forall₂.nil
  | cons a as ih =>
    cases hpa : p a with
    | true =>
      simp only [replaceFirst, hpa, if_true]
      exact List.Forall₂.cons (hf a hpa) (List.forall₂_same.2 fun x _ => hrefl x)
    | false =>
      simp only [replaceFirst, hpa, Bool.false_eq_true, if_false]
      exact List.Forall₂.cons (hrefl a) ih

theorem mem_replaceFirst (p : α → Bool) (f : α → α) (l : List α) (x : α)
    (hx : x ∈ replaceFirst p f l) : x ∈ l ∨ ∃ a, a ∈ l ∧ x = f a := by
  induction l with
  | nil => simp [replaceFirst] at hx
  | cons a as ih =>
    cases hpa : p a with
    | true =>
      rw [replaceFirst, if_pos hpa] at hx
      rcases List.mem_cons.1 hx with rfl | hmem
      · exact Or.inr ⟨a, List.mem_cons_self a as, rfl⟩
      · exact Or.inl (List.mem_cons_of_mem a hmem)
    | false =>
      rw [replaceFirst, if_neg (by simp [hpa])] at hx
      rcases List.mem_cons.1 hx with rfl | hmem
      · exact Or.inl (List.mem_cons_self x as)
      · rcases ih hmem with h | ⟨b, hb, he⟩
        · exact Or.inl (List.mem_cons_of_mem a h)
        · exact Or.inr ⟨b, List.mem_cons_of_mem a hb, he⟩

/-! ## Helper lemmas about leave synthesis -/

theorem synthesizeLeave_nil (t : String) (att : List AttendanceRecord) :
    synthesizeLeave t [] att = att := rfl

theorem synthesizeLeave_cons (t : String) (d : Nat) (days : List Nat)
    (att : List AttendanceRecord) :
    synthesizeLeave t (d :: days) att =
      synthesizeLeave t days
        (if hasLeaveRecordForDay att d then att else att ++ [mkLeaveRecord t d]) := rfl

theorem hasLeaveRecordForDay_append (a b : List AttendanceRecord) (d : Nat) :
    hasLeaveRecordForDay (a ++ b) d =
      (hasLeaveRecordForDay a d || hasLeaveRecordForDay b d) := by
  simp [hasLeaveRecordForDay, List.any_append]

theorem hasLeave_singleton (t : String) (d d' : Nat) :
    hasLeaveRecordForDay [mkLeaveRecord t d] d' = (d == d') := by
  simp [hasLeaveRecordForDay, mkLeaveRecord, leaveSubject]

theorem synthesizeLeave_extends (t : String) (days : List Nat)
    (att : List AttendanceRecord) :
    ∃ ext, synthesizeLeave t days att = att ++ ext ∧
      ∀ r ∈ ext, ∃ d ∈ days, r = mkLeaveRecord t d := by
  induction days generalizing att with
  | nil => exact ⟨[], by simp [synthesizeLeave_nil], by simp⟩
  | cons d ds ih =>
    rw [synthesizeLeave_cons]
    by_cases h : hasLeaveRecordForDay att d
    · rw [if_pos h]
      obtain ⟨ext, he, hr⟩ := ih att
      exact ⟨ext, he, fun r hr' =>
        let ⟨d', hd', he'⟩ := hr r hr'; ⟨d', List.mem_cons_of_mem d hd', he'⟩⟩
    · rw [if_neg h]
      obtain ⟨ext, he, hr⟩ := ih (att ++ [mkLeaveRecord t d])
      refine ⟨mkLeaveRecord t d :: ext, ?_, ?_⟩
      · rw [he, List.append_assoc]; rfl
      · intro r hr'
        rcases List.mem_cons.1 hr' with rfl | hmem
        · exact ⟨d, List.mem_cons_self d ds, rfl⟩
        · let ⟨d', hd', he'⟩ := hr r hmem
          exact ⟨d', List.mem_cons_of_mem d hd', he'⟩

theorem synthesizeLeave_complete (t : String) (days : List Nat)
    (att : List AttendanceRecord) :
    ∀ d ∈ days, hasLeaveRecordForDay (synthesizeLeave t days att) d = true := by
  induction days generalizing att with
  | nil => simp
  | cons d0 ds ih =>
    intro d hd
    rw [synthesizeLeave_cons]
    rcases List.mem_cons.1 hd with rfl | hd'
    · have hacc : hasLeaveRecordForDay
          (if hasLeaveRecordForDay att d then att else att ++ [mkLeaveRecord t d]) d = true := by
        by_cases h : hasLeaveRecordForDay att d
        · rw [if_pos h]; exact h
        · rw [if_neg h, hasLeaveRecordForDay_append, hasLeave_singleton]
          simp
      obtain ⟨ext, he, -⟩ := synthesizeLeave_extends t ds
        (if hasLeaveRecordForDay att d then att else att ++ [mkLeaveRecord t d])
      rw [he, hasLeaveRecordForDay_append, hacc, Bool.true_or]
    · exact ih _ d hd'

theorem synthesizeLeave_eq_self (t : String) (days : List Nat)
    (att : List AttendanceRecord)
    (h : ∀ d ∈ days, hasLeaveRecordForDay att d = true) :
    synthesizeLeave t days att = att := by
  induction days with
  | nil => rfl
  | cons d ds ih =>
    rw [synthesizeLeave_cons, if_pos (h d (List.mem_cons_self d ds))]
    exact ih fun d' hd' => h d' (List.mem_cons_of_mem d hd')

theorem synthesizeLeave_idem (t : String) (days : List Nat)
    (att : List AttendanceRecord) :
    synthesizeLeave t days (synthesizeLeave t days att) = synthesizeLeave t days att :=
  synthesizeLeave_eq_self t days _ (synthesizeLeave_complete t days att)

theorem synthesizeLeave_eq_append_filter (t : String) (days : List Nat)
    (att : List AttendanceRecord) (hnd : days.Nodup) :
    synthesizeLeave t days att =
      att ++ ((days.filter fun d => ! hasLeaveRecordForDay att d).map (mkLeaveRecord t)) := by
  induction days generalizing att with
  | nil => simp [synthesizeLeave_nil]
  | cons d ds ih =>
    have hnd' : ds.Nodup := (List.nodup_cons.1 hnd).2
    have hd_not : d ∉ ds := (List.nodup_cons.1 hnd).1
    rw [synthesizeLeave_cons]
    by_cases h : hasLeaveRecordForDay att d
    · rw [if_pos h, ih att hnd', List.filter_cons]
      simp [h]
    · rw [if_neg h, ih _ hnd', List.filter_cons]
      have hfilter : (ds.filter fun d' => ! hasLeaveRecordForDay (att ++ [mkLeaveRecord t d]) d')
          = ds.filter fun d' => ! hasLeaveRecordForDay att d' := by
        apply List.filter_congr
        intro d' hd'
        have hne : d ≠ d' := fun he => hd_not (he ▸ hd')
        rw [hasLeaveRecordForDay_append, hasLeave_singleton]
        simp [hne]
      rw [hfilter]
      simp [h, List.append_assoc]

theorem noDupLeave_append_single (att : List AttendanceRecord) (t : String) (d : Nat)
    (h : noDupLeave att) (hd : ¬ hasLeaveRecordForDay att d = true) :
    noDupLeave (att ++ [mkLeaveRecord t d]) := by
  unfold noDupLeave at h ⊢
  rw [List.pairwise_append]
  refine ⟨h, List.pairwise_singleton _ _, ?_⟩
  intro x hx y hy
  rw [List.mem_singleton] at hy
  subst hy
  rintro ⟨hdate, hsub, -⟩
  apply hd
  unfold hasLeaveRecordForDay
  rw [List.any_eq_true]
  refine ⟨x, hx, ?_⟩
  simp [mkLeaveRecord] at hdate
  simp [hdate, hsub]

theorem noDupLeave_synthesizeLeave (t : String) (days : List Nat)
    (att : List AttendanceRecord) (h : noDupLeave att) :
    noDupLeave (synthesizeLeave t days att) := by
  induction days generalizing att with
  | nil => exact h
  | cons d ds ih =>
    rw [synthesizeLeave_cons]
    by_cases hd : hasLeaveRecordForDay att d
    · rw [if_pos hd]; exact ih att h
    · rw [if_neg hd]; exact ih _ (noDupLeave_append_single att t d h hd)

/-! ## Helper lemmas about days and percentages -/

theorem leaveDays_nodup (a b : Nat) : (leaveDays a b).Nodup :=
  List.nodup_range' a (b + 1 - a)

theorem mem_leaveDays (a b d : Nat) : d ∈ leaveDays a b ↔ a ≤ d ∧ d ≤ b := by
  rw [leaveDays, List.mem_range'_1]
  omega

theorem presentCount_le_length (att : List AttendanceRecord) :
    presentCount att ≤ att.length :=
  List.length_filter_le _ _

theorem presentCount_append (a b : List AttendanceRecord) :
    presentCount (a ++ b) = presentCount a + presentCount b := by
  simp [presentCount, List.filter_append]

theorem presentCount_all_present (l : List AttendanceRecord)
    (h : ∀ r ∈ l, r.status = AttendanceStatus.Present) :
    presentCount l = l.length := by
  unfold presentCount
  rw [List.filter_eq_self.2]
  intro a ha
  simpa using h a ha

theorem attendancePercentage_lt_75_iff (att : List AttendanceRecord) :
    (attendancePercentage att < 75) ↔ 4 * presentCount att < 3 * att.length := by
  unfold attendancePercentage
  rcases Nat.eq_zero_or_pos att.length with h0 | hpos
  · rw [if_neg (by omega)]
    have hp : presentCount att = 0 := by
      have := presentCount_le_length att
      omega
    constructor
    · intro h; norm_num at h
    · intro h; omega
  · rw [if_pos hpos]
    rw [div_mul_eq_mul_div, div_lt_iff₀ (by exact_mod_cast hpos)]
    have hcast : ((presentCount att : ℚ) * 100 < 75 * (att.length : ℚ))
        ↔ (100 * presentCount att < 75 * att.length) := by
      rw [mul_comm (presentCount att : ℚ) 100]
      constructor
      · intro h
        exact_mod_cast h
      · intro h
        exact_mod_cast h
    rw [hcast]
    omega

theorem attendancePercentage_mono_append_present (att ext : List AttendanceRecord)
    (h : ∀ r ∈ ext, r.status = AttendanceStatus.Present) :
    attendancePercentage att ≤ attendancePercentage (att ++ ext) := by
  have hext : presentCount ext = ext.length := presentCount_all_present ext h
  rcases Nat.eq_zero_or_pos att.length with h0 | hpos
  · have hatt : att = [] := List.length_eq_zero.1 h0
    subst hatt
    rw [List.nil_append]
    have h100 : attendancePercentage [] = 100 := by
      simp [attendancePercentage]
    rw [h100]
    unfold attendancePercentage
    rcases Nat.eq_zero_or_pos ext.length with e0 | epos
    · rw [if_neg (by omega)]
    · rw [if_pos epos, hext,
        div_self (Nat.cast_ne_zero.2 epos.ne' : ((ext.length : ℚ)) ≠ 0)]
      norm_num
  · unfold attendancePercentage
    rw [List.length_append, presentCount_append, if_pos hpos, if_pos (by omega)]
    have hple := presentCount_le_length att
    have h1 : (presentCount att : ℚ) ≤ (att.length : ℚ) := by exact_mod_cast hple
    have h2 : (0:ℚ) ≤ (ext.length : ℚ) := by positivity
    rw [div_mul_eq_mul_div, div_mul_eq_mul_div,
      div_le_div_iff₀ (by exact_mod_cast hpos) (by positivity)]
    push_cast [hext]
    nlinarith [mul_nonneg (sub_nonneg.2 h1) h2]

/-! ## Unfolding equations for handleUpdateLeaveStatus -/

theorem handleUpdateLeaveStatus_of_none (s : AppState) (appId : String)
    (status : LeaveStatus) (c : Option String)
    (h : s.leaveApplications.find? (fun app => app.id == appId) = none) :
    handleUpdateLeaveStatus s appId status c = s := by
  unfold handleUpdateLeaveStatus
  rw [h]

theorem handleUpdateLeaveStatus_of_some (s : AppState) (appId : String)
    (status : LeaveStatus) (c : Option String) (app : LeaveApplication)
    (h : s.leaveApplications.find? (fun a => a.id == appId) = some app) :
    handleUpdateLeaveStatus s appId status c =
      { s with
        leaveApplications := replaceFirst (fun a => a.id == appId)
          (fun a => { a with status := status, teacherComment := c })
          s.leaveApplications,
        students :=
          if status = LeaveStatus.Approved then
            match s.students.find? (fun st => st.id == app.studentId) with
            | none => s.students
            | some _ =>
              replaceFirst (fun st => st.id == app.studentId)
                (fun st =>
                  { st with
                    attendance := synthesizeLeave (teacherNameOf s.users)
                      (leaveDays app.startDate app.endDate) st.attendance })
                s.students
          else s.students } := by
  unfold handleUpdateLeaveStatus
  rw [h]

/-! ## Access-block evaluator (claims C3, C4) -/

/-- C3: the access-block evaluator computes attendancePercentage as 100
for an empty sequence and 100 × Present-count / length otherwise, with
low attendance meaning strictly below 75; a low-attendance unblocked
student is blocked with reason Low Attendance; a Behaviour Issue block
escalates to Attendance & Behaviour; a Low Attendance or Attendance &
Behaviour block is left unchanged; and with at least 75% Present the
evaluator changes nothing (it never unblocks). -/
theorem accessBlockEval_cases (st : Student) :
    (attendancePercentage st.attendance =
      if st.attendance.length = 0 then 100
      else 100 * (presentCount st.attendance : ℚ) / (st.attendance.length : ℚ)) ∧
    (attendancePercentage st.attendance < 75 → st.isAccessBlocked = false →
      accessBlockEval st =
        { st with isAccessBlocked := true,
                  blockReason := some BlockReason.LowAttendance }) ∧
    (attendancePercentage st.attendance < 75 → st.isAccessBlocked = true →
      st.blockReason = some BlockReason.BehaviourIssue →
      accessBlockEval st =
        { st with blockReason := some BlockReason.AttendanceAndBehaviour }) ∧
    (attendancePercentage st.attendance < 75 → st.isAccessBlocked = true →
      (st.blockReason = some BlockReason.LowAttendance ∨
       st.blockReason = some BlockReason.AttendanceAndBehaviour) →
      accessBlockEval st = st) ∧
    (¬ attendancePercentage st.attendance < 75 → accessBlockEval st = st) := by
  refine ⟨?_, ?_, ?_, ?_, ?_⟩
  · unfold attendancePercentage
    rcases Nat.eq_zero_or_pos st.attendance.length with h0 | hpos
    · rw [if_neg (by omega), if_pos h0]
    · rw [if_pos hpos, if_neg (by omega)]
      ring
  · intro hlow hnb
    simp [accessBlockEval, hlow, hnb]
  · intro hlow hb hbr
    simp [accessBlockEval, hlow, hb, hbr]
  · intro hlow hb hor
    rcases hor with hbr | hbr <;> simp [accessBlockEval, hlow, hb, hbr]
  · intro hhigh
    simp [accessBlockEval, hhigh]

/-- Witness for C3 at a concrete student: one Absent record gives 0% <
75%, and the unblocked student gets blocked with reason Low Attendance. -/
theorem accessBlockEval_cases_witness :
    attendancePercentage lowStudent.attendance < 75 ∧
    lowStudent.isAccessBlocked = false ∧
    accessBlockEval lowStudent =
      { lowStudent with isAccessBlocked := true,
                        blockReason := some BlockReason.LowAttendance } := by
  have hlow : attendancePercentage lowStudent.attendance < 75 :=
    (attendancePercentage_lt_75_iff _).2 (by decide)
  exact ⟨hlow, rfl, (accessBlockEval_cases lowStudent).2.1 hlow rfl⟩

/-- C4: the access-block evaluator is idempotent (a fixed point after one
application), touches only the isAccessBlocked and blockReason fields,
and its block outputs are a pure function of the attendance sequence and
the prior block state (isAccessBlocked, blockReason). -/
theorem accessBlockEval_pure_idem (st st' : Student) :
    accessBlockEval (accessBlockEval st) = accessBlockEval st ∧
    (accessBlockEval st).attendance = st.attendance ∧
    (accessBlockEval st).id = st.id ∧
    (accessBlockEval st).name = st.name ∧
    (accessBlockEval st).rollNumber = st.rollNumber ∧
    (accessBlockEval st).department = st.department ∧
    (accessBlockEval st).learningPath = st.learningPath ∧
    (accessBlockEval st).behaviourStatus = st.behaviourStatus ∧
    (accessBlockEval st).progress = st.progress ∧
    (accessBlockEval st).temporaryAccessExpires = st.temporaryAccessExpires ∧
    (accessBlockEval st).engagementStatus = st.engagementStatus ∧
    (st.attendance = st'.attendance → st.isAccessBlocked = st'.isAccessBlocked →
      st.blockReason = st'.blockReason →
      (accessBlockEval st).isAccessBlocked = (accessBlockEval st').isAccessBlocked ∧
      (accessBlockEval st).blockReason = (accessBlockEval st').blockReason) := by
  have heval : ∀ u : Student, accessBlockEval u = u ∨
      accessBlockEval u = { u with isAccessBlocked := true,
                                   blockReason := some BlockReason.LowAttendance } ∨
      accessBlockEval u = { u with blockReason := some BlockReason.AttendanceAndBehaviour } := by
    intro u
    unfold accessBlockEval
    by_cases hlow : attendancePercentage u.attendance < 75
    · by_cases hb : u.isAccessBlocked
      · by_cases hbr : u.blockReason = some BlockReason.BehaviourIssue
        · right; right; simp [hlow, hb, hbr]
        · left; simp [hlow, hb, hbr]
      · right; left; simp [hlow, hb]
    · left; simp [hlow]
  refine ⟨?_, ?_, ?_, ?_, ?_, ?_, ?_, ?_, ?_, ?_, ?_, ?_⟩
  case _ =>
    unfold accessBlockEval
    by_cases hlow : attendancePercentage st.attendance < 75
    · by_cases hb : st.isAccessBlocked
      · by_cases hbr : st.blockReason = some BlockReason.BehaviourIssue
        · simp [hlow, hb, hbr]
        · simp [hlow, hb, hbr]
      · simp [hlow, hb]
    · simp [hlow]
  case _ => rcases heval st with h | h | h <;> rw [h]
  case _ => rcases heval st with h | h | h <;> rw [h]
  case _ => rcases heval st with h | h | h <;> rw [h]
  case _ => rcases heval st with h | h | h <;> rw [h]
  case _ => rcases heval st with h | h | h <;> rw [h]
  case _ => rcases heval st with h | h | h <;> rw [h]
  case _ => rcases heval st with h | h | h <;> rw [h]
  case _ => rcases heval st with h | h | h <;> rw [h]
  case _ => rcases heval st with h | h | h <;> rw [h]
  case _ => rcases heval st with h | h | h <;> rw [h]
  case _ =>
    intro h1 h2 h3
    unfold accessBlockEval
    simp only [h1, h2, h3]
    constructor <;> split_ifs <;> simp [h1, h2, h3]

/-- Witness for C4 at a concrete student. -/
theorem accessBlockEval_pure_idem_witness :
    accessBlockEval (accessBlockEval lowStudent) = accessBlockEval lowStudent ∧
    ((accessBlockEval lowStudent).isAccessBlocked = (accessBlockEval lowStudent).isAccessBlocked ∧
     (accessBlockEval lowStudent).blockReason = (accessBlockEval lowStudent).blockReason) :=
  ⟨(accessBlockEval_pure_idem lowStudent lowStudent).1,
   (accessBlockEval_pure_idem lowStudent lowStudent).2.2.2.2.2.2.2.2.2.2.2 rfl rfl rfl⟩

/-! ## Exam scoring and deletion (claims C5, C8) -/

/-- C5: for an existing exam and a known current user, submitExam appends
one submission whose score is round(100 × correctCount / questionCount)
— correctCount counting questions whose correctAnswer equals the
submitted answer — an integer in [0, 100], and 0 for a zero-question
exam. -/
theorem handleSubmitExam_spec (s : AppState) (newId : String) (sub : SubmitExamInput)
    (exam : Exam) (cu : User)
    (hexam : s.exams.find? (fun e => e.id == sub.examId) = some exam)
    (hcu : s.currentUser = some cu) :
    ∃ score : ℤ,
      (handleSubmitExam s newId sub).examSubmissions
        = s.examSubmissions ++
          [{ id := newId, examId := sub.examId, studentId := sub.studentId,
             studentName := cu.name, answers := sub.answers,
             submittedAt := sub.submittedAt, score := score,
             status := sub.status }] ∧
      score = (if exam.questions.length > 0 then
          round ((100 : ℚ) * ((exam.questions.filter fun q =>
            decide (lookupAnswer sub.answers q.id = some q.correctAnswer)).length : ℚ)
            / (exam.questions.length : ℚ))
        else 0) ∧
      0 ≤ score ∧ score ≤ 100 ∧
      (exam.questions.length = 0 → score = 0) := by
  have hle : (exam.questions.filter fun q =>
      decide (lookupAnswer sub.answers q.id = some q.correctAnswer)).length
      ≤ exam.questions.length := List.length_filter_le _ _
  set c := (exam.questions.filter fun q =>
      decide (lookupAnswer sub.answers q.id = some q.correctAnswer)).length with hc
  set n := exam.questions.length with hn
  have hscore : round (if n > 0 then ((c:ℚ)/(n:ℚ))*100 else 0)
      = (if n > 0 then round ((100:ℚ)*(c:ℚ)/(n:ℚ)) else (0:ℤ)) := by
    by_cases h : n > 0
    · rw [if_pos h, if_pos h]
      congr 1
      ring
    · rw [if_neg h, if_neg h, round_zero]
  have hb1 : (0:ℤ) ≤ (if n > 0 then round ((100:ℚ)*(c:ℚ)/(n:ℚ)) else (0:ℤ)) := by
    by_cases h : n > 0
    · rw [if_pos h, round_eq]
      have hnpos : (0:ℚ) < (n : ℚ) := by exact_mod_cast h
      apply Int.le_floor.2
      push_cast
      positivity
    · rw [if_neg h]
  have hb2 : (if n > 0 then round ((100:ℚ)*(c:ℚ)/(n:ℚ)) else (0:ℤ)) ≤ 100 := by
    by_cases h : n > 0
    · rw [if_pos h, round_eq]
      have hnpos : (0:ℚ) < (n : ℚ) := by exact_mod_cast h
      have hc_le : ((c:ℚ)) ≤ (n : ℚ) := by exact_mod_cast hle
      have hx : (100:ℚ) * c / n ≤ 100 := by
        rw [div_le_iff₀ hnpos]
        nlinarith
      have hfl : ⌊(100:ℚ) * c / n + 1/2⌋ < 101 := by
        apply Int.floor_lt.2
        push_cast
        linarith
      omega
    · rw [if_neg h]
      norm_num
  have hb3 : n = 0 → (if n > 0 then round ((100:ℚ)*(c:ℚ)/(n:ℚ)) else (0:ℤ)) = 0 := by
    intro h
    rw [if_neg (by omega)]
  refine ⟨_, ?_, hscore, hscore ▸ hb1, hscore ▸ hb2, fun h => hscore ▸ hb3 h⟩
  unfold handleSubmitExam
  rw [hexam, hcu]

/-- Witness for C5: a 4-question exam with 3 matching answers scores 75. -/
theorem handleSubmitExam_spec_witness :
    (fixExamState.exams.find? (fun e => e.id == fixSubInput.examId) = some fixExam) ∧
    (fixExamState.currentUser = some fixStudentUser) ∧
    (handleSubmitExam fixExamState "sub-1" fixSubInput).examSubmissions.map
        (fun sub => sub.score) = [75] := by
  refine ⟨rfl, rfl, ?_⟩
  obtain ⟨score, heq, hval, -, -, -⟩ :=
    handleSubmitExam_spec fixExamState "sub-1" fixSubInput fixExam fixStudentUser rfl rfl
  have hcv : (fixExam.questions.filter fun q =>
      decide (lookupAnswer fixSubInput.answers q.id = some q.correctAnswer)).length = 3 := by
    decide
  have hnv : fixExam.questions.length = 4 := by decide
  rw [hcv, hnv] at hval
  have h75 : score = 75 := by
    rw [hval]
    norm_num [round_eq]
  rw [heq, h75]
  rfl

/-- C8: deleteExam removes the exam with the given id and exactly the
submissions whose examId references it; all other submissions (and the
other collections) are untouched and keep their order. -/
theorem handleDeleteExam_spec (s : AppState) (examId : String) :
    (∀ e : Exam, e ∈ (handleDeleteExam s examId).exams ↔ e ∈ s.exams ∧ ¬ e.id = examId) ∧
    (∀ sub : ExamSubmission, sub ∈ (handleDeleteExam s examId).examSubmissions ↔
      sub ∈ s.examSubmissions ∧ ¬ sub.examId = examId) ∧
    List.Sublist (handleDeleteExam s examId).exams s.exams ∧
    List.Sublist (handleDeleteExam s examId).examSubmissions s.examSubmissions ∧
    (handleDeleteExam s examId).users = s.users ∧
    (handleDeleteExam s examId).students = s.students ∧
    (handleDeleteExam s examId).leaveApplications = s.leaveApplications ∧
    (handleDeleteExam s examId).currentUser = s.currentUser := by
  refine ⟨?_, ?_, ?_, ?_, rfl, rfl, rfl, rfl⟩
  · intro e
    simp [handleDeleteExam, List.mem_filter]
  · intro sub
    simp [handleDeleteExam, List.mem_filter]
  · exact List.filter_sublist s.exams
  · exact List.filter_sublist s.examSubmissions

/-! ## Parent signup error handling (claim C9) -/

/-- C9: a Parent signup whose childEmail is absent or matches no
Student-role user fails with an auth error and changes neither the users
nor the students collection nor the current user. -/
theorem handleSignup_parent_unresolved (s : AppState)
    (newUserId rollNumber dept : String) (details : SignupDetails)
    (hrole : details.role = UserRole.parent)
    (hchild : ∀ ce, details.childEmail = some ce →
      s.users.find? (fun u => u.email == ce && decide (u.role = UserRole.student)) = none) :
    (handleSignup s newUserId rollNumber dept details).users = s.users ∧
    (handleSignup s newUserId rollNumber dept details).students = s.students ∧
    (handleSignup s newUserId rollNumber dept details).currentUser = s.currentUser ∧
    (handleSignup s newUserId rollNumber dept details).authError.isSome = true := by
  unfold handleSignup
  by_cases hdup : (s.users.find? fun u => u.email == details.email).isSome
  · simp [hdup]
  · have hstu : ¬ details.role = UserRole.student := by
      rw [hrole]
      intro h
      cases h
    cases hce : details.childEmail with
    | none => simp [hdup, hstu, hrole, hce]
    | some ce =>
      by_cases hempty : ce = ""
      · simp [hdup, hstu, hrole, hce, hempty]
      · simp [hdup, hstu, hrole, hce, hempty, hchild ce hce]

/-- Witness for C9: a parent signup naming a child email with no matching
student account leaves the state unchanged and sets an auth error. -/
theorem handleSignup_parent_unresolved_witness :
    parentDetails.role = UserRole.parent ∧
    (handleSignup baseState "u-99" "S999" "Science" parentDetails).users = baseState.users ∧
    (handleSignup baseState "u-99" "S999" "Science" parentDetails).students = baseState.students ∧
    (handleSignup baseState "u-99" "S999" "Science" parentDetails).currentUser = baseState.currentUser ∧
    (handleSignup baseState "u-99" "S999" "Science" parentDetails).authError.isSome = true := by
  have h := handleSignup_parent_unresolved baseState "u-99" "S999" "Science" parentDetails rfl
    (fun ce hce => by
      have h1 : some "nobody@school.com" = some ce := hce
      cases h1
      decide)
  exact ⟨rfl, h.1, h.2.1, h.2.2.1, h.2.2.2⟩

theorem handleUpdateLeaveStatus_users (s : AppState) (appId : String)
    (status : LeaveStatus) (c : Option String) :
    (handleUpdateLeaveStatus s appId status c).users = s.users := by
  unfold handleUpdateLeaveStatus
  cases s.leaveApplications.find? (fun a => a.id == appId) <;> rfl

theorem handleUpdateLeaveStatus_exams (s : AppState) (appId : String)
    (status : LeaveStatus) (c : Option String) :
    (handleUpdateLeaveStatus s appId status c).exams = s.exams := by
  unfold handleUpdateLeaveStatus
  cases s.leaveApplications.find? (fun a => a.id == appId) <;> rfl

theorem handleUpdateLeaveStatus_examSubmissions (s : AppState) (appId : String)
    (status : LeaveStatus) (c : Option String) :
    (handleUpdateLeaveStatus s appId status c).examSubmissions = s.examSubmissions := by
  unfold handleUpdateLeaveStatus
  cases s.leaveApplications.find? (fun a => a.id == appId) <;> rfl

theorem handleUpdateLeaveStatus_currentUser (s : AppState) (appId : String)
    (status : LeaveStatus) (c : Option String) :
    (handleUpdateLeaveStatus s appId status c).currentUser = s.currentUser := by
  unfold handleUpdateLeaveStatus
  cases s.leaveApplications.find? (fun a => a.id == appId) <;> rfl

theorem handleUpdateLeaveStatus_apps_of_some (s : AppState) (appId : String)
    (status : LeaveStatus) (c : Option String) (app : LeaveApplication)
    (happ : s.leaveApplications.find? (fun a => a.id == appId) = some app) :
    (handleUpdateLeaveStatus s appId status c).leaveApplications =
      replaceFirst (fun a => a.id == appId)
        (fun a => { a with status := status, teacherComment := c })
        s.leaveApplications := by
  rw [handleUpdateLeaveStatus_of_some s appId status c app happ]

theorem handleUpdateLeaveStatus_students_approved (s : AppState) (appId : String)
    (comment : Option String) (app : LeaveApplication)
    (happ : s.leaveApplications.find? (fun a => a.id == appId) = some app) :
    (handleUpdateLeaveStatus s appId LeaveStatus.Approved comment).students =
      match s.students.find? (fun st => st.id == app.studentId) with
      | none => s.students
      | some _ =>
        replaceFirst (fun st => st.id == app.studentId)
          (fun st =>
            { st with
              attendance := synthesizeLeave (teacherNameOf s.users)
                (leaveDays app.startDate app.endDate) st.attendance })
          s.students := by
  rw [handleUpdateLeaveStatus_of_some s appId _ comment app happ]
  rfl

theorem handleUpdateLeaveStatus_students_not_approved (s : AppState) (appId : String)
    (status : LeaveStatus) (c : Option String) (app : LeaveApplication)
    (hst : ¬ status = LeaveStatus.Approved)
    (happ : s.leaveApplications.find? (fun a => a.id == appId) = some app) :
    (handleUpdateLeaveStatus s appId status c).students = s.students := by
  rw [handleUpdateLeaveStatus_of_some s appId status c app happ]
  simp [hst]

/-! ## updateLeaveStatus error handling (claim C7, corrected) -/

/-- C7 (amended): an unknown applicationId makes updateLeaveStatus a full
no-op; when the application exists but its studentId resolves to no
student, the students, users, exams, submissions and current user are
unchanged and no attendance is synthesized, but the application's status
and teacherComment are still updated (the claim's "entire state
unchanged" fails on the code). -/
theorem handleUpdateLeaveStatus_missing_refs (s : AppState) (appId : String)
    (status : LeaveStatus) (comment : Option String) :
    (s.leaveApplications.find? (fun a => a.id == appId) = none →
      handleUpdateLeaveStatus s appId status comment = s) ∧
    (∀ app, s.leaveApplications.find? (fun a => a.id == appId) = some app →
      s.students.find? (fun st => st.id == app.studentId) = none →
      (handleUpdateLeaveStatus s appId status comment).students = s.students ∧
      (handleUpdateLeaveStatus s appId status comment).users = s.users ∧
      (handleUpdateLeaveStatus s appId status comment).exams = s.exams ∧
      (handleUpdateLeaveStatus s appId status comment).examSubmissions = s.examSubmissions ∧
      (handleUpdateLeaveStatus s appId status comment).currentUser = s.currentUser ∧
      (handleUpdateLeaveStatus s appId status comment).leaveApplications
        = replaceFirst (fun a => a.id == appId)
            (fun a => { a with status := status, teacherComment := comment })
            s.leaveApplications) := by
  constructor
  · intro h
    exact handleUpdateLeaveStatus_of_none s appId status comment h
  · intro app happ hstu
    refine ⟨?_, handleUpdateLeaveStatus_users s appId status comment,
      handleUpdateLeaveStatus_exams s appId status comment,
      handleUpdateLeaveStatus_examSubmissions s appId status comment,
      handleUpdateLeaveStatus_currentUser s appId status comment,
      handleUpdateLeaveStatus_apps_of_some s appId status comment app happ⟩
    by_cases h : status = LeaveStatus.Approved
    · subst h
      rw [handleUpdateLeaveStatus_students_approved s appId comment app happ, hstu]
    · exact handleUpdateLeaveStatus_students_not_approved s appId status comment app h happ

/-- Counterexample to C7 as stated: in a state whose only leave
application references a missing student, approving it still flips the
application's status from Pending to Approved, so the operation is not a
no-op. -/
theorem handleUpdateLeaveStatus_missing_student_not_noop :
    (ghostState.leaveApplications.find? (fun a => a.id == "l1")).isSome = true ∧
    ghostState.students.find? (fun st => st.id == "s1") = none ∧
    handleUpdateLeaveStatus ghostState "l1" LeaveStatus.Approved (some "ok") ≠ ghostState ∧
    (handleUpdateLeaveStatus ghostState "l1" LeaveStatus.Approved (some "ok")).leaveApplications.map
        (fun a => a.status) = [LeaveStatus.Approved] ∧
    ghostState.leaveApplications.map (fun a => a.status) = [LeaveStatus.Pending] := by
  decide

/-- Witness for C7 (amended) at concrete inputs. -/
theorem handleUpdateLeaveStatus_missing_refs_witness :
    (baseState.leaveApplications.find? (fun a => a.id == "zz") = none ∧
     handleUpdateLeaveStatus baseState "zz" LeaveStatus.Approved none = baseState) ∧
    (ghostState.leaveApplications.find? (fun a => a.id == "l1") = some baseApplication ∧
     ghostState.students.find? (fun st => st.id == baseApplication.studentId) = none ∧
     (handleUpdateLeaveStatus ghostState "l1" LeaveStatus.Approved (some "ok")).students
       = ghostState.students) := by
  constructor
  · have hn : baseState.leaveApplications.find? (fun a => a.id == "zz") = none := by decide
    exact ⟨hn, (handleUpdateLeaveStatus_missing_refs baseState "zz" LeaveStatus.Approved none).1 hn⟩
  · exact ⟨rfl, rfl,
      ((handleUpdateLeaveStatus_missing_refs ghostState "l1" LeaveStatus.Approved (some "ok")).2
        baseApplication rfl rfl).1⟩

/-! ## Leave approval: monotonicity (claim C6) -/

/-- C6: approving a leave application never decreases any student's
attendance percentage, since synthesized records are always Present. -/
theorem handleUpdateLeaveStatus_approve_mono (s : AppState) (appId : String)
    (comment : Option String) :
    List.Forall₂
      (fun old new => attendancePercentage old.attendance ≤ attendancePercentage new.attendance)
      s.students (handleUpdateLeaveStatus s appId LeaveStatus.Approved comment).students := by
  cases happ : s.leaveApplications.find? (fun a => a.id == appId) with
  | none =>
    rw [handleUpdateLeaveStatus_of_none s appId _ comment happ]
    exact List.forall₂_same.2 fun st _ => le_refl _
  | some app =>
    rw [handleUpdateLeaveStatus_students_approved s appId comment app happ]
    cases hstu : s.students.find? (fun st => st.id == app.studentId) with
    | none => exact List.forall₂_same.2 fun st _ => le_refl _
    | some st0 =>
      apply forall₂_replaceFirst
      · intro a
        exact le_refl _
      · intro a ha
        show attendancePercentage a.attendance ≤ attendancePercentage
          (synthesizeLeave (teacherNameOf s.users)
            (leaveDays app.startDate app.endDate) a.attendance)
        obtain ⟨ext, hext, hr⟩ := synthesizeLeave_extends (teacherNameOf s.users)
          (leaveDays app.startDate app.endDate) a.attendance
        rw [hext]
        apply attendancePercentage_mono_append_present
        intro r hrm
        obtain ⟨d, -, heq⟩ := hr r hrm
        rw [heq]
        rfl

theorem AppState.ext_fields (a b : AppState)
    (h1 : a.currentUser = b.currentUser) (h2 : a.users = b.users)
    (h3 : a.students = b.students) (h4 : a.leaveApplications = b.leaveApplications)
    (h5 : a.exams = b.exams) (h6 : a.examSubmissions = b.examSubmissions)
    (h7 : a.isLoginView = b.isLoginView) (h8 : a.authError = b.authError) : a = b := by
  cases a
  cases b
  simp_all

theorem handleUpdateLeaveStatus_isLoginView (s : AppState) (appId : String)
    (status : LeaveStatus) (c : Option String) :
    (handleUpdateLeaveStatus s appId status c).isLoginView = s.isLoginView := by
  unfold handleUpdateLeaveStatus
  cases s.leaveApplications.find? (fun a => a.id == appId) <;> rfl

theorem handleUpdateLeaveStatus_authError (s : AppState) (appId : String)
    (status : LeaveStatus) (c : Option String) :
    (handleUpdateLeaveStatus s appId status c).authError = s.authError := by
  unfold handleUpdateLeaveStatus
  cases s.leaveApplications.find? (fun a => a.id == appId) <;> rfl

/-! ## updateLeaveStatus frame conditions (claim C10) -/

/-- C10: updateLeaveStatus leaves users, exams, exam submissions and the
current user untouched; every student keeps every non-attendance field,
existing attendance records are preserved in order with new records only
appended, and every student other than the one referenced by the found
application's studentId is fully unchanged. -/
theorem handleUpdateLeaveStatus_frame (s : AppState) (appId : String)
    (status : LeaveStatus) (comment : Option String) :
    (handleUpdateLeaveStatus s appId status comment).users = s.users ∧
    (handleUpdateLeaveStatus s appId status comment).exams = s.exams ∧
    (handleUpdateLeaveStatus s appId status comment).examSubmissions = s.examSubmissions ∧
    (handleUpdateLeaveStatus s appId status comment).currentUser = s.currentUser ∧
    List.Forall₂ (fun old new =>
        (∃ ext, new.attendance = old.attendance ++ ext) ∧
        new.id = old.id ∧ new.name = old.name ∧ new.rollNumber = old.rollNumber ∧
        new.department = old.department ∧ new.learningPath = old.learningPath ∧
        new.isAccessBlocked = old.isAccessBlocked ∧
        new.behaviourStatus = old.behaviourStatus ∧
        new.blockReason = old.blockReason ∧ new.progress = old.progress ∧
        new.temporaryAccessExpires = old.temporaryAccessExpires ∧
        new.engagementStatus = old.engagementStatus ∧
        (∀ app, s.leaveApplications.find? (fun a => a.id == appId) = some app →
          ¬ old.id = app.studentId → new = old))
      s.students (handleUpdateLeaveStatus s appId status comment).students := by
  refine ⟨handleUpdateLeaveStatus_users s appId status comment,
    handleUpdateLeaveStatus_exams s appId status comment,
    handleUpdateLeaveStatus_examSubmissions s appId status comment,
    handleUpdateLeaveStatus_currentUser s appId status comment, ?_⟩
  cases happ : s.leaveApplications.find? (fun a => a.id == appId) with
  | none =>
    rw [handleUpdateLeaveStatus_of_none s appId status comment happ]
    exact List.forall₂_same.2 fun a _ =>
      ⟨⟨[], by simp⟩, rfl, rfl, rfl, rfl, rfl, rfl, rfl, rfl, rfl, rfl, rfl,
        fun app h1 h2 => rfl⟩
  | some app0 =>
    by_cases hAp : status = LeaveStatus.Approved
    · subst hAp
      rw [handleUpdateLeaveStatus_students_approved s appId comment app0 happ]
      cases hstu : s.students.find? (fun st => st.id == app0.studentId) with
      | none =>
        exact List.forall₂_same.2 fun a _ =>
          ⟨⟨[], by simp⟩, rfl, rfl, rfl, rfl, rfl, rfl, rfl, rfl, rfl, rfl, rfl,
            fun app h1 h2 => rfl⟩
      | some st0 =>
        apply forall₂_replaceFirst
        · intro a
          exact ⟨⟨[], by simp⟩, rfl, rfl, rfl, rfl, rfl, rfl, rfl, rfl, rfl, rfl, rfl,
            fun app h1 h2 => rfl⟩
        · intro a ha
          obtain ⟨ext, hext, -⟩ := synthesizeLeave_extends (teacherNameOf s.users)
            (leaveDays app0.startDate app0.endDate) a.attendance
          refine ⟨⟨ext, hext⟩, rfl, rfl, rfl, rfl, rfl, rfl, rfl, rfl, rfl, rfl, rfl, ?_⟩
          intro app h1 h2
          cases h1
          exact absurd (eq_of_beq ha) h2
    · rw [handleUpdateLeaveStatus_students_not_approved s appId status comment app0 hAp happ]
      exact List.forall₂_same.2 fun a _ =>
        ⟨⟨[], by simp⟩, rfl, rfl, rfl, rfl, rfl, rfl, rfl, rfl, rfl, rfl, rfl,
          fun app h1 h2 => rfl⟩

/-- Witness for C10 at concrete inputs. -/
theorem handleUpdateLeaveStatus_frame_witness :
    (handleUpdateLeaveStatus baseState "l1" LeaveStatus.Approved (some "ok")).users
      = baseState.users ∧
    (handleUpdateLeaveStatus baseState "l1" LeaveStatus.Approved (some "ok")).exams
      = baseState.exams :=
  ⟨(handleUpdateLeaveStatus_frame baseState "l1" LeaveStatus.Approved (some "ok")).1,
   (handleUpdateLeaveStatus_frame baseState "l1" LeaveStatus.Approved (some "ok")).2.1⟩

/-! ## Leave approval: synthesis spec (claim C2, corrected) -/

/-- C2 (amended): approving a resolvable application sets its status to
Approved and its teacherComment to the given comment, and appends to the
student exactly one record {subject "On Approved Leave", timestamp "All
Day", status Present} for each day of the inclusive UTC range that lacks
one; the teacherName is the first Teacher-role user's name when that
name is nonempty, and "System" when there is no teacher — or (deviating
from the claim, due to `teacher?.name || 'System'`) when the teacher's
name is the empty string. -/
theorem handleUpdateLeaveStatus_approve_spec (s : AppState) (appId : String)
    (comment : Option String) (app : LeaveApplication) (st : Student)
    (happ : s.leaveApplications.find? (fun a => a.id == appId) = some app)
    (hstu : s.students.find? (fun x => x.id == app.studentId) = some st) :
    (∀ d : Nat, d ∈ leaveDays app.startDate app.endDate ↔
      app.startDate ≤ d ∧ d ≤ app.endDate) ∧
    (handleUpdateLeaveStatus s appId LeaveStatus.Approved comment).leaveApplications.find?
        (fun a => a.id == appId)
      = some { app with status := LeaveStatus.Approved, teacherComment := comment } ∧
    (handleUpdateLeaveStatus s appId LeaveStatus.Approved comment).students.find?
        (fun x => x.id == app.studentId)
      = some { st with attendance := st.attendance ++
          (((leaveDays app.startDate app.endDate).filter
              (fun d => ! hasLeaveRecordForDay st.attendance d)).map
            (mkLeaveRecord (teacherNameOf s.users))) } ∧
    ((s.users.find? (fun u => decide (u.role = UserRole.teacher)) = none) →
      teacherNameOf s.users = "System") ∧
    (∀ t, s.users.find? (fun u => decide (u.role = UserRole.teacher)) = some t →
      ¬ t.name = "" → teacherNameOf s.users = t.name) := by
  refine ⟨fun d => mem_leaveDays app.startDate app.endDate d, ?_, ?_, ?_, ?_⟩
  · have hfr := find?_replaceFirst (fun a : LeaveApplication => a.id == appId)
      (fun a => { a with status := LeaveStatus.Approved, teacherComment := comment })
      (fun a => rfl) s.leaveApplications
    rw [handleUpdateLeaveStatus_apps_of_some s appId _ comment app happ, hfr, happ]
    rfl
  · have hfr2 := find?_replaceFirst (fun x : Student => x.id == app.studentId)
      (fun st =>
        { st with
          attendance := synthesizeLeave (teacherNameOf s.users)
            (leaveDays app.startDate app.endDate) st.attendance })
      (fun a => rfl) s.students
    rw [handleUpdateLeaveStatus_students_approved s appId comment app happ]
    simp only [hstu]
    rw [hfr2, hstu]
    simp only [Option.map_some']
    rw [synthesizeLeave_eq_append_filter _ _ _ (leaveDays_nodup _ _)]
  · intro h
    unfold teacherNameOf
    rw [h]
  · intro t h hne
    unfold teacherNameOf
    simp only [h]
    rw [if_neg hne]

/-- Counterexample to C2 as stated: with a first Teacher-role user whose
name is the empty string, the synthesized record's teacherName is
"System", not the teacher's name "". -/
theorem handleUpdateLeaveStatus_blank_teacher_name :
    (blankTeacherState.users.find? (fun u => decide (u.role = UserRole.teacher))
      = some blankTeacher) ∧
    blankTeacher.name = "" ∧
    ((handleUpdateLeaveStatus blankTeacherState "l1" LeaveStatus.Approved none).students.map
      (fun st => st.attendance.map (fun r => r.teacherName))) = [["System"]] ∧
    "System" ≠ "" := by
  decide

/-- Witness for C2 (amended): a 3-day approval over empty attendance
appends exactly 3 Present leave records named after the teacher. -/
theorem handleUpdateLeaveStatus_approve_spec_witness :
    (baseState.leaveApplications.find? (fun a => a.id == "l1") = some baseApplication) ∧
    (baseState.students.find? (fun x => x.id == baseApplication.studentId) = some baseStudent) ∧
    (handleUpdateLeaveStatus baseState "l1" LeaveStatus.Approved (some "ok")).students.find?
        (fun x => x.id == baseApplication.studentId)
      = some { baseStudent with attendance :=
          [mkLeaveRecord "Ms Green" 10, mkLeaveRecord "Ms Green" 11, mkLeaveRecord "Ms Green" 12] } := by
  refine ⟨rfl, rfl, ?_⟩
  have h := (handleUpdateLeaveStatus_approve_spec baseState "l1" (some "ok")
    baseApplication baseStudent rfl rfl).2.2.1
  rw [h]
  decide

/-! ## Leave approval: idempotence and deduplication (claim C1) -/

/-- C1: re-approving a leave application is a complete no-op on the
state (the whole operation is idempotent), and when no student has two
records with the same date and the "On Approved Leave" subject, the
operation preserves that property, so duplicates are never created. -/
theorem handleUpdateLeaveStatus_approve_idem (s : AppState) (appId : String)
    (comment : Option String)
    (hdup : ∀ st ∈ s.students, noDupLeave st.attendance) :
    handleUpdateLeaveStatus (handleUpdateLeaveStatus s appId LeaveStatus.Approved comment)
        appId LeaveStatus.Approved comment
      = handleUpdateLeaveStatus s appId LeaveStatus.Approved comment ∧
    ∀ st ∈ (handleUpdateLeaveStatus s appId LeaveStatus.Approved comment).students,
      noDupLeave st.attendance := by
  cases happ : s.leaveApplications.find? (fun a => a.id == appId) with
  | none =>
    have h0 := handleUpdateLeaveStatus_of_none s appId LeaveStatus.Approved comment happ
    rw [h0]
    exact ⟨h0, hdup⟩
  | some app0 =>
    have happs' := handleUpdateLeaveStatus_apps_of_some s appId LeaveStatus.Approved comment app0 happ
    have hfrA := find?_replaceFirst (fun a : LeaveApplication => a.id == appId)
      (fun a => { a with status := LeaveStatus.Approved, teacherComment := comment })
      (fun a => rfl) s.leaveApplications
    have hfind' : (handleUpdateLeaveStatus s appId LeaveStatus.Approved comment).leaveApplications.find?
        (fun a => a.id == appId)
        = some { app0 with status := LeaveStatus.Approved, teacherComment := comment } := by
      rw [happs', hfrA, happ]
      rfl
    have hstud := handleUpdateLeaveStatus_students_approved s appId comment app0 happ
    have hstud2 := handleUpdateLeaveStatus_students_approved
      (handleUpdateLeaveStatus s appId LeaveStatus.Approved comment) appId comment
      { app0 with status := LeaveStatus.Approved, teacherComment := comment } hfind'
    dsimp only at hstud2
    have husers := handleUpdateLeaveStatus_users s appId LeaveStatus.Approved comment
    rw [husers] at hstud2
    have happs2 := handleUpdateLeaveStatus_apps_of_some
      (handleUpdateLeaveStatus s appId LeaveStatus.Approved comment) appId LeaveStatus.Approved
      comment { app0 with status := LeaveStatus.Approved, teacherComment := comment } hfind'
    cases hstu : s.students.find? (fun st => st.id == app0.studentId) with
    | none =>
      simp only [hstu] at hstud
      have hfind2 : (handleUpdateLeaveStatus s appId LeaveStatus.Approved comment).students.find?
          (fun st => st.id == app0.studentId) = none := by
        rw [hstud, hstu]
      simp only [hfind2] at hstud2
      constructor
      · apply AppState.ext_fields
        · exact handleUpdateLeaveStatus_currentUser _ _ _ _
        · exact handleUpdateLeaveStatus_users _ _ _ _
        · rw [hstud2]
        · rw [happs2, happs']
          have hrr := replaceFirst_replaceFirst (fun a : LeaveApplication => a.id == appId)
            (fun a => { a with status := LeaveStatus.Approved, teacherComment := comment })
            (fun a => rfl) (fun a _ => rfl) s.leaveApplications
          exact hrr
        · exact handleUpdateLeaveStatus_exams _ _ _ _
        · exact handleUpdateLeaveStatus_examSubmissions _ _ _ _
        · exact handleUpdateLeaveStatus_isLoginView _ _ _ _
        · exact handleUpdateLeaveStatus_authError _ _ _ _
      · intro st hst
        rw [hstud] at hst
        exact hdup st hst
    | some st0 =>
      simp only [hstu] at hstud
      have hfrS := find?_replaceFirst (fun x : Student => x.id == app0.studentId)
        (fun st =>
          { st with
            attendance := synthesizeLeave (teacherNameOf s.users)
              (leaveDays app0.startDate app0.endDate) st.attendance })
        (fun a => rfl) s.students
      have hfind2 : (handleUpdateLeaveStatus s appId LeaveStatus.Approved comment).students.find?
          (fun st => st.id == app0.studentId)
          = some { st0 with
              attendance := synthesizeLeave (teacherNameOf s.users)
                (leaveDays app0.startDate app0.endDate) st0.attendance } := by
        rw [hstud, hfrS, hstu]
        rfl
      simp only [hfind2] at hstud2
      have hgg : ∀ a : Student, (fun x : Student => x.id == app0.studentId) a = true →
          (fun st =>
            { st with
              attendance := synthesizeLeave (teacherNameOf s.users)
                (leaveDays app0.startDate app0.endDate) st.attendance })
          ((fun st =>
            { st with
              attendance := synthesizeLeave (teacherNameOf s.users)
                (leaveDays app0.startDate app0.endDate) st.attendance }) a)
          = (fun st =>
            { st with
              attendance := synthesizeLeave (teacherNameOf s.users)
                (leaveDays app0.startDate app0.endDate) st.attendance }) a := by
        intro a _
        dsimp only
        rw [synthesizeLeave_idem]
      constructor
      · apply AppState.ext_fields
        · exact handleUpdateLeaveStatus_currentUser _ _ _ _
        · exact handleUpdateLeaveStatus_users _ _ _ _
        · rw [hstud2, hstud]
          have hrr2 := replaceFirst_replaceFirst (fun x : Student => x.id == app0.studentId)
            (fun st =>
              { st with
                attendance := synthesizeLeave (teacherNameOf s.users)
                  (leaveDays app0.startDate app0.endDate) st.attendance })
            (fun a => rfl) hgg s.students
          exact hrr2
        · rw [happs2, happs']
          have hrr := replaceFirst_replaceFirst (fun a : LeaveApplication => a.id == appId)
            (fun a => { a with status := LeaveStatus.Approved, teacherComment := comment })
            (fun a => rfl) (fun a _ => rfl) s.leaveApplications
          exact hrr
        · exact handleUpdateLeaveStatus_exams _ _ _ _
        · exact handleUpdateLeaveStatus_examSubmissions _ _ _ _
        · exact handleUpdateLeaveStatus_isLoginView _ _ _ _
        · exact handleUpdateLeaveStatus_authError _ _ _ _
      · intro st hst
        rw [hstud] at hst
        rcases mem_replaceFirst _ _ _ _ hst with hmem | ⟨a, ha, rfl⟩
        · exact hdup st hmem
        · exact noDupLeave_synthesizeLeave _ _ _ (hdup a ha)

/-- Witness for C1 at concrete inputs. -/
theorem handleUpdateLeaveStatus_approve_idem_witness :
    (∀ st ∈ baseState.students, noDupLeave st.attendance) ∧
    handleUpdateLeaveStatus
        (handleUpdateLeaveStatus baseState "l1" LeaveStatus.Approved (some "ok"))
        "l1" LeaveStatus.Approved (some "ok")
      = handleUpdateLeaveStatus baseState "l1" LeaveStatus.Approved (some "ok") := by
  have hdup : ∀ st ∈ baseState.students, noDupLeave st.attendance := by
    intro st hst
    have hb : st = baseStudent := by
      simpa [baseState] using hst
    rw [hb]
    exact List.Pairwise.nil
  exact ⟨hdup, (handleUpdateLeaveStatus_approve_idem baseState "l1" (some "ok") hdup).1⟩
